import Mathlib

/-!
Shallow embedding of the estimation/consensus engine of the agile-poker
repository (app/services/estimation_service.py, app/schemas/estimate.py,
app/models/{estimate,issue,session}.py), together with theorems checking
the natural-language specification against it.

The relational store is modelled as a `State` holding the session, issue
and estimate rows; SQLAlchemy queries become list lookups and filters, and
the ORM in-place mutations plus `db.commit()` become functional updates of
the state. Python `float` arithmetic on vote averages is modelled with `ℚ`
(all averages in scope are exact rationals of small numerators).
-/

attribute [local semireducible] Rat.sub Rat.add Rat.mul Rat.inv

namespace AgilePoker

/-- Row of the `estimates` table (app/models/estimate.py): one vote of a
user for an issue; `story_points` is an integer column, `is_joker` marks a
joker (abstention) card. -/
structure Estimate where
  issue_id : ℕ
  user_id : ℕ
  story_points : ℤ
  is_joker : Bool
deriving DecidableEq

/-- Row of the `issues` table (app/models/issue.py), with the fields the
estimation engine touches. -/
structure Issue where
  id : ℕ
  session_id : ℕ
  story_points : Option ℤ
  story_points_before : Option ℤ
  is_estimated : Bool
deriving DecidableEq

/-- Row of the `sessions` table (app/models/session.py); `participants`
and `estimators` are the two many-to-many user collections. -/
structure Session where
  id : ℕ
  participants : List ℕ
  estimators : List ℕ
deriving DecidableEq

/-- The relational store: the three tables the engine reads and writes. -/
structure State where
  sessions : List Session
  issues : List Issue
  estimates : List Estimate
deriving DecidableEq

/-- db.query(Issue).filter(Issue.id == issue_id).first() -/
def findIssue (s : State) (issue_id : ℕ) : Option Issue :=
  s.issues.find? (fun i => i.id == issue_id)

/-- db.query(Session).filter(Session.id == session_id).first() -/
def findSession (s : State) (session_id : ℕ) : Option Session :=
  s.sessions.find? (fun x => x.id == session_id)

/-- db.query(Estimate).filter(Estimate.issue_id == issue_id).all() -/
def votesFor (s : State) (issue_id : ℕ) : List Estimate :=
  s.estimates.filter (fun e => e.issue_id == issue_id)

/-- The estimator-count resolution inside `_check_consensus`: the explicit
estimator list when non-empty, else the participants, else 0. -/
def estimatorsCount (sess : Session) : ℕ :=
  if sess.estimators.length > 0 then sess.estimators.length
  else if sess.participants ≠ [] then sess.participants.length
  else 0

/-- Python max over a non-empty list (0 as the never-used empty default). -/
def listMax : List ℤ → ℤ
  | [] => 0
  | x :: xs => xs.foldl max x

/-- Python min over a non-empty list (0 as the never-used empty default). -/
def listMin : List ℤ → ℤ
  | [] => 0
  | x :: xs => xs.foldl min x

/-- valid_scores = [1, 2, 4, 8, 16] in `_check_consensus`. -/
def valid_scores : List ℤ := [1, 2, 4, 8, 16]

/-- Python abs on a rational. -/
def ratAbs (q : ℚ) : ℚ := if q < 0 then -q else q

/-- The fold underlying Python min with a key function: starting from the
current best `b`, replace it only when a later element has a strictly
smaller key, so the first element with minimal key wins. -/
def minByFold (k : ℤ → ℚ) (b : ℤ) (l : List ℤ) : ℤ :=
  l.foldl (fun acc y => if k y < k acc then y else acc) b

/-- Python min(list, key=k) on a non-empty list. -/
def pyMinBy (k : ℤ → ℚ) : List ℤ → ℤ
  | [] => 0
  | x :: xs => minByFold k x xs

/-- final_score = min(valid_scores, key=lambda x: abs(x - avg)). -/
def nearestScore (avg : ℚ) : ℤ :=
  pyMinBy (fun x => ratAbs ((x : ℚ) - avg)) valid_scores

/-- avg = sum(points) / len(points). -/
def avgPoints (points : List ℤ) : ℚ :=
  (points.sum : ℚ) / (points.length : ℚ)

/-- Projection of the points of a vote list. -/
def pointsOf (l : List Estimate) : List ℤ :=
  l.map (fun e => e.story_points)

/-- Non-joker votes for an issue (valid_estimates in the source). -/
def nonJokerVotes (s : State) (issue_id : ℕ) : List Estimate :=
  (votesFor s issue_id).filter (fun e => !e.is_joker)

/-- ORM identity update of an issue row followed by db.commit(). -/
def updateIssue (s : State) (issue_id : ℕ) (new : Issue) : State :=
  { s with issues := s.issues.map (fun i => if i.id == issue_id then new else i) }

/-- EstimationService._check_consensus: evaluates consensus for an issue
and finalizes the issue row when reached; returns the reached flag and the
resulting store. -/
def check_consensus (s : State) (issue_id : ℕ) : Bool × State :=
  match findIssue s issue_id with
  | none => (false, s)
  | some issue =>
    if issue.is_estimated then (false, s)
    else
      match findSession s issue.session_id with
      | none => (false, s)
      | some session =>
        let estimators_count := estimatorsCount session
        if estimators_count = 0 then (false, s)
        else
          let estimates := votesFor s issue_id
          let estimate_count := estimates.length
          if estimate_count < estimators_count then (false, s)
          else
            let valid_estimates := estimates.filter (fun e => !e.is_joker)
            if valid_estimates = [] then (false, s)
            else
              let points := valid_estimates.map (fun e => e.story_points)
              let variance := listMax points - listMin points
              if variance ≤ 2 ∧ estimate_count ≥ estimators_count then
                let avg := avgPoints points
                let final_score := nearestScore avg
                (true, updateIssue s issue_id
                  { issue with story_points := some final_score, is_estimated := true })
              else (false, s)

/-- Validated vote-submission payload (EstimateCreate in
app/schemas/estimate.py), fields in the schema's declaration order. -/
structure EstimateCreate where
  session_id : ℕ
  issue_id : ℕ
  story_points : ℤ
  user_id : ℕ
  is_joker : Bool
deriving DecidableEq

/-- The upsert inside EstimationService.create_estimate: overwrite the
existing row for (issue_id, user_id) if one exists, else insert a new row. -/
def upsertVote (s : State) (d : EstimateCreate) : State :=
  if s.estimates.any (fun e => e.issue_id == d.issue_id && e.user_id == d.user_id) then
    { s with estimates := s.estimates.map (fun e =>
        if e.issue_id == d.issue_id && e.user_id == d.user_id then
          { e with story_points := d.story_points, is_joker := d.is_joker }
        else e) }
  else
    { s with estimates := s.estimates ++ [⟨d.issue_id, d.user_id, d.story_points, d.is_joker⟩] }

/-- EstimationService.create_estimate: upsert the vote, commit, then run
`_check_consensus` on the vote's issue; the resulting store is returned. -/
def create_estimate (s : State) (d : EstimateCreate) : State :=
  (check_consensus (upsertVote s d) d.issue_id).2

/-- EstimateSummary (app/schemas/estimate.py); the per-user dict is kept
as an association list user_id ↦ (points, is_joker). -/
structure EstimateSummary where
  issue_id : ℕ
  total_estimates : ℕ
  valid_estimates : ℕ
  avg_points : ℚ
  min_points : ℤ
  max_points : ℤ
  is_consensus : Bool
  estimates : List (ℕ × ℤ × Bool)
  joker_count : ℕ
deriving DecidableEq

/-- EstimationService.get_estimate_summary: the read-only aggregate view;
returns none when the issue has no votes. -/
def get_estimate_summary (s : State) (issue_id : ℕ) : Option EstimateSummary :=
  let estimates := votesFor s issue_id
  if estimates = [] then none
  else
    let joker_estimates := estimates.filter (fun e => e.is_joker)
    let valid_estimates := estimates.filter (fun e => !e.is_joker)
    if valid_estimates = [] then
      some { issue_id := issue_id
             total_estimates := estimates.length
             valid_estimates := 0
             avg_points := 0
             min_points := 0
             max_points := 0
             is_consensus := false
             estimates := estimates.map (fun e => (e.user_id, 0, true))
             joker_count := joker_estimates.length }
    else
      let points := valid_estimates.map (fun e => e.story_points)
      let avg := avgPoints points
      let is_consensus := decide (listMax points - listMin points ≤ 2)
      some { issue_id := issue_id
             total_estimates := estimates.length
             valid_estimates := valid_estimates.length
             avg_points := avg
             min_points := listMin points
             max_points := listMax points
             is_consensus := is_consensus
             estimates := estimates.map (fun e =>
               (e.user_id, if e.is_joker then 0 else e.story_points, e.is_joker))
             joker_count := joker_estimates.length }

/-- The validate_story_points pydantic field validator
(app/schemas/estimate.py). `data_is_joker` is the value of `is_joker` in
`info.data` at validation time; in the source, `is_joker` is declared
after `story_points`, and pydantic v2 validates fields in declaration
order, so at this point `info.data` never contains `is_joker` and the
`.get` default False is used (the validator is invoked with `none`). -/
def validate_story_points (v : ℤ) (data_is_joker : Option Bool) : Except String ℤ :=
  let is_joker := data_is_joker.getD false
  if is_joker then
    if v ≠ 0 then Except.error "story_points must be 0 when is_joker is True"
    else Except.ok v
  else
    if v < 1 then Except.error "story_points must be greater than or equal to 1"
    else Except.ok v

/-- Pydantic validation of an EstimateCreate payload: the `Field(..., ge=0)`
bound on story_points, then the validate_story_points field validator,
which runs before `is_joker` has been validated (see above), so it
receives `none` for the `is_joker` entry of `info.data`. -/
def validateEstimateCreate (session_id issue_id : ℕ) (story_points : ℤ)
    (user_id : ℕ) (is_joker : Bool) : Except String EstimateCreate :=
  if story_points < 0 then Except.error "Input should be greater than or equal to 0"
  else
    match validate_story_points story_points none with
    | Except.error e => Except.error e
    | Except.ok v => Except.ok ⟨session_id, issue_id, v, user_id, is_joker⟩

/-- The unique-vote invariant of the estimates table: at most one row per
(issue_id, user_id) pair (the uq_issue_user_estimate constraint). -/
def UniqueVotes (l : List Estimate) : Prop :=
  l.Pairwise (fun a b => ¬(a.issue_id = b.issue_id ∧ a.user_id = b.user_id))

/-- Store with one estimator, one matching vote of 4 points: consensus. -/
def S1 : State :=
  { sessions := [⟨1, [], [1]⟩],
    issues := [⟨1, 1, none, none, false⟩],
    estimates := [⟨1, 1, 4, false⟩] }

/-- Store with two estimators voting 5 and 7: variance 2, average exactly 6. -/
def S2 : State :=
  { sessions := [⟨1, [], [1, 2]⟩],
    issues := [⟨1, 1, none, none, false⟩],
    estimates := [⟨1, 1, 5, false⟩, ⟨1, 2, 7, false⟩] }

/-- Store with three estimators but only two votes cast. -/
def S3 : State :=
  { sessions := [⟨1, [], [1, 2, 3]⟩],
    issues := [⟨1, 1, none, none, false⟩],
    estimates := [⟨1, 1, 4, false⟩, ⟨1, 2, 4, false⟩] }

/-- Store whose issue is already finalized at 8 points, with a fresh
unanimous vote that would otherwise re-finalize it. -/
def S4 : State :=
  { sessions := [⟨1, [], [1]⟩],
    issues := [⟨1, 1, some 8, none, true⟩],
    estimates := [⟨1, 1, 2, false⟩] }

/-- Store whose issue holds a previous estimate of 7 and is not yet
finalized, with one vote of 4 ready to reach consensus. -/
def S5 : State :=
  { sessions := [⟨1, [], [1]⟩],
    issues := [⟨1, 1, some 7, none, false⟩],
    estimates := [⟨1, 1, 4, false⟩] }

/-- Store where both estimators played the joker card. -/
def S7 : State :=
  { sessions := [⟨1, [], [1, 2]⟩],
    issues := [⟨1, 1, none, none, false⟩],
    estimates := [⟨1, 1, 0, true⟩, ⟨1, 2, 0, true⟩] }

/-- Store with two numeric votes and one joker, for the summary view. -/
def S8 : State :=
  { sessions := [⟨1, [], [1, 2, 3]⟩],
    issues := [⟨1, 1, none, none, false⟩],
    estimates := [⟨1, 1, 4, false⟩, ⟨1, 2, 0, true⟩, ⟨1, 3, 2, false⟩] }

/-- Store with an existing vote of user 1, about to be overwritten. -/
def S9 : State :=
  { sessions := [⟨1, [], [1, 2]⟩],
    issues := [⟨1, 1, none, none, false⟩],
    estimates := [⟨1, 1, 8, false⟩] }

/-- Store whose single estimator is user 1 but whose only vote was cast
by user 99, an outsider; the vote count still meets the quorum. -/
def S10 : State :=
  { sessions := [⟨1, [], [1]⟩],
    issues := [⟨1, 1, none, none, false⟩],
    estimates := [⟨1, 99, 4, false⟩] }

/-- Store with three estimators and the spec's consensus-failure votes
1, 8 and 4 (variance 7). -/
def SFail : State :=
  { sessions := [⟨1, [], [1, 2, 3]⟩],
    issues := [⟨1, 1, none, none, false⟩],
    estimates := [⟨1, 1, 1, false⟩, ⟨1, 2, 8, false⟩, ⟨1, 3, 4, false⟩] }

/-- Python abs agrees with the mathematical absolute value on ℚ. -/
lemma ratAbs_eq_abs (q : ℚ) : ratAbs q = |q| := by
  unfold ratAbs
  split_ifs with h
  · exact (abs_of_neg h).symm
  · exact (abs_of_nonneg (not_lt.mp h)).symm

/-- The vote upsert never touches the issues table. -/
lemma upsertVote_issues (s : State) (d : EstimateCreate) :
    (upsertVote s d).issues = s.issues := by
  unfold upsertVote
  split <;> rfl

/-- Finalization never touches the estimates table. -/
lemma check_consensus_estimates (s : State) (iid : ℕ) :
    (check_consensus s iid).2.estimates = s.estimates := by
  unfold check_consensus
  dsimp only
  repeat' split
  all_goals rfl

/-- The evaluator either reports reached, or returns the store untouched. -/
lemma check_consensus_cases (s : State) (iid : ℕ) :
    (check_consensus s iid).1 = true ∨ check_consensus s iid = (false, s) := by
  unfold check_consensus
  dsimp only
  repeat' split
  all_goals first
    | exact Or.inl rfl
    | exact Or.inr rfl

/-- Replacing the found issue row in place is observed by the next lookup. -/
lemma find?_map_update (l : List Issue) (iid : ℕ) (new : Issue) (hn : new.id = iid) :
    ∀ issue, l.find? (fun i => i.id == iid) = some issue →
      (l.map (fun i => if i.id == iid then new else i)).find? (fun i => i.id == iid) = some new := by
  induction l with
  | nil => intro issue h; simp at h
  | cons a t ih =>
    intro issue h
    by_cases ha : a.id = iid
    · simp only [List.map_cons, if_pos (beq_iff_eq.mpr ha)]
      exact List.find?_cons_of_pos _ (beq_iff_eq.mpr hn)
    · have hna : (a.id == iid) = false := beq_eq_false_iff_ne.mpr ha
      rw [List.find?_cons_of_neg _ (by simp [hna])] at h
      simp only [List.map_cons, if_neg (by simp [hna] : ¬(a.id == iid) = true)]
      rw [List.find?_cons_of_neg _ (by simp [hna])]
      exact ih issue h

/-- findIssue after updateIssue returns the replacement row. -/
lemma findIssue_update (s : State) (iid : ℕ) (new : Issue) (hn : new.id = iid)
    (issue : Issue) (hfind : findIssue s iid = some issue) :
    findIssue (updateIssue s iid new) iid = some new :=
  find?_map_update s.issues iid new hn issue hfind

/-- Unfolding of the evaluator under resolved issue and session lookups. -/
lemma check_consensus_eq (s : State) (iid : ℕ) (issue : Issue) (sess : Session)
    (hfind : findIssue s iid = some issue)
    (hest : issue.is_estimated = false)
    (hsess : findSession s issue.session_id = some sess) :
    check_consensus s iid =
      if estimatorsCount sess = 0 then (false, s)
      else if (votesFor s iid).length < estimatorsCount sess then (false, s)
      else if nonJokerVotes s iid = [] then (false, s)
      else if listMax (pointsOf (nonJokerVotes s iid)) - listMin (pointsOf (nonJokerVotes s iid)) ≤ 2
                ∧ (votesFor s iid).length ≥ estimatorsCount sess then
        (true, updateIssue s iid
          { issue with
              story_points := some (nearestScore (avgPoints (pointsOf (nonJokerVotes s iid)))),
              is_estimated := true })
      else (false, s) := by
  unfold check_consensus
  rw [hfind]
  dsimp only
  rw [if_neg (by simp [hest])]
  rw [hsess]
  rfl

/-- The already-estimated short circuit of the evaluator. -/
lemma check_consensus_estimated (s : State) (iid : ℕ) (issue : Issue)
    (hfind : findIssue s iid = some issue)
    (hest : issue.is_estimated = true) :
    check_consensus s iid = (false, s) := by
  unfold check_consensus
  rw [hfind]
  dsimp only
  rw [if_pos (by simp [hest])]

/-- The evaluator gives up when the issue's session does not exist. -/
lemma check_consensus_no_session (s : State) (iid : ℕ) (issue : Issue)
    (hfind : findIssue s iid = some issue)
    (hest : issue.is_estimated = false)
    (hsess : findSession s issue.session_id = none) :
    check_consensus s iid = (false, s) := by
  unfold check_consensus
  rw [hfind]
  dsimp only
  rw [if_neg (by simp [hest]), hsess]

/-- Inversion: when the evaluator reports reached, the issue was not yet
estimated, some non-joker vote existed, the variance was within 2, and
the store got the finalized issue row written back. -/
lemma check_consensus_true_inv (s : State) (iid : ℕ) (issue : Issue)
    (hfind : findIssue s iid = some issue)
    (h : (check_consensus s iid).1 = true) :
    issue.is_estimated = false ∧
    nonJokerVotes s iid ≠ [] ∧
    listMax (pointsOf (nonJokerVotes s iid)) - listMin (pointsOf (nonJokerVotes s iid)) ≤ 2 ∧
    (check_consensus s iid).2 = updateIssue s iid
      { issue with
          story_points := some (nearestScore (avgPoints (pointsOf (nonJokerVotes s iid)))),
          is_estimated := true } := by
  by_cases hest : issue.is_estimated = true
  · rw [check_consensus_estimated s iid issue hfind hest] at h
    exact absurd h (by simp)
  · have hestf : issue.is_estimated = false := Bool.eq_false_iff.mpr hest
    cases hsess : findSession s issue.session_id with
    | none =>
      rw [check_consensus_no_session s iid issue hfind hestf hsess] at h
      exact absurd h (by simp)
    | some sess =>
      rw [check_consensus_eq s iid issue sess hfind hestf hsess] at h ⊢
      split_ifs at h ⊢ with h0 h1 h2 h3
      exact ⟨hestf, h2, h3.1, rfl⟩

/-- The fold behind Python min-with-key keeps the first minimizer: the
result is in the scanned list, its key is minimal, and on key ties the
result does not move past an earlier (smaller, as the lists in use are
ascending) element. -/
lemma minByFold_spec (k : ℤ → ℚ) :
    ∀ (l : List ℤ) (b : ℤ), (∀ y ∈ l, b < y) → l.Pairwise (· < ·) →
      (minByFold k b l = b ∨ minByFold k b l ∈ l) ∧
      k (minByFold k b l) ≤ k b ∧
      (k b ≤ k (minByFold k b l) → minByFold k b l = b) ∧
      ∀ x ∈ l, k (minByFold k b l) ≤ k x ∧ (k x ≤ k (minByFold k b l) → minByFold k b l ≤ x)
  | [], b, _, _ => by
    refine ⟨Or.inl rfl, le_refl _, fun _ => rfl, ?_⟩
    intro x hx
    exact absurd hx (List.not_mem_nil x)
  | y :: ys, b, hb, hp => by
    have hby : b < y := hb y (List.mem_cons_self y ys)
    have hys : ∀ z ∈ ys, y < z := by
      intro z hz
      exact List.rel_of_pairwise_cons hp hz
    have hp2 : ys.Pairwise (· < ·) := (List.pairwise_cons.mp hp).2
    have hstep : minByFold k b (y :: ys) = minByFold k (if k y < k b then y else b) ys := rfl
    by_cases hky : k y < k b
    · have IH := minByFold_spec k ys y hys hp2
      rw [hstep, if_pos hky]
      obtain ⟨Hmem, Hle, Htie, Hall⟩ := IH
      refine ⟨?_, ?_, ?_, ?_⟩
      · rcases Hmem with h | h
        · exact Or.inr (by rw [h]; exact List.mem_cons_self y ys)
        · exact Or.inr (List.mem_cons_of_mem y h)
      · exact le_of_lt (lt_of_le_of_lt Hle hky)
      · intro hcontra
        exact absurd (lt_of_le_of_lt Hle hky) (not_lt.mpr hcontra)
      · intro x hx
        rcases List.mem_cons.mp hx with rfl | hx2
        · exact ⟨Hle, fun ht => le_of_eq (Htie ht)⟩
        · exact Hall x hx2
    · have hkb : k b ≤ k y := not_lt.mp hky
      have hb2 : ∀ z ∈ ys, b < z := fun z hz => hb z (List.mem_cons_of_mem y hz)
      have IH := minByFold_spec k ys b hb2 hp2
      rw [hstep, if_neg hky]
      obtain ⟨Hmem, Hle, Htie, Hall⟩ := IH
      refine ⟨?_, Hle, Htie, ?_⟩
      · rcases Hmem with h | h
        · exact Or.inl h
        · exact Or.inr (List.mem_cons_of_mem y h)
      · intro x hx
        rcases List.mem_cons.mp hx with rfl | hx2
        · refine ⟨le_trans Hle hkb, ?_⟩
          intro ht
          have hrb : minByFold k b ys = b := Htie (le_trans hkb ht)
          rw [hrb]
          exact le_of_lt hby
        · exact Hall x hx2

/-- The snapped score is a member of the fixed denomination set, its
distance to the average is minimal, and distance ties resolve to the
smaller (earlier-scanned) denomination. -/
lemma nearestScore_spec (avg : ℚ) :
    nearestScore avg ∈ valid_scores ∧
    ∀ x ∈ valid_scores,
      ratAbs ((nearestScore avg : ℚ) - avg) ≤ ratAbs ((x : ℚ) - avg) ∧
      (ratAbs ((x : ℚ) - avg) ≤ ratAbs ((nearestScore avg : ℚ) - avg) → nearestScore avg ≤ x) := by
  obtain ⟨Hmem, Hle, Htie, Hall⟩ :=
    minByFold_spec (fun x => ratAbs ((x : ℚ) - avg)) [2, 4, 8, 16] 1 (by decide) (by decide)
  have hr : nearestScore avg = minByFold (fun x => ratAbs ((x : ℚ) - avg)) 1 [2, 4, 8, 16] := rfl
  constructor
  · rw [hr]
    rcases Hmem with h | h
    · rw [h]; exact List.mem_cons_self 1 _
    · exact List.mem_cons_of_mem 1 h
  · intro x hx
    rw [hr]
    rcases List.mem_cons.mp hx with rfl | hx2
    · exact ⟨Hle, fun ht => le_of_eq (Htie ht)⟩
    · exact Hall x hx2

/-- Among votes with pairwise distinct (issue_id, user_id) keys, a key that
occurs occurs exactly once. -/
lemma countP_eq_one_of_unique : ∀ (l : List Estimate) (iid uid : ℕ),
    UniqueVotes l → (∃ e ∈ l, e.issue_id = iid ∧ e.user_id = uid) →
    l.countP (fun e => e.issue_id == iid && e.user_id == uid) = 1
  | [], iid, uid, _, hex => by
    obtain ⟨e, he, _⟩ := hex
    exact absurd he (List.not_mem_nil e)
  | a :: t, iid, uid, h, hex => by
    obtain ⟨hhead, htail⟩ := List.pairwise_cons.mp h
    by_cases ha : a.issue_id = iid ∧ a.user_id = uid
    · have htz : t.countP (fun e => e.issue_id == iid && e.user_id == uid) = 0 := by
        rw [List.countP_eq_zero]
        intro e he
        simp only [Bool.and_eq_true, beq_iff_eq, not_and]
        intro h1 h2
        exact hhead e he ⟨ha.1.trans h1.symm, ha.2.trans h2.symm⟩
      rw [List.countP_cons, htz]
      simp [ha.1, ha.2]
    · have hex2 : ∃ e ∈ t, e.issue_id = iid ∧ e.user_id = uid := by
        obtain ⟨e, he, hc⟩ := hex
        rcases List.mem_cons.mp he with rfl | het
        · exact absurd hc ha
        · exact ⟨e, het, hc⟩
      rw [List.countP_cons, countP_eq_one_of_unique t iid uid htail hex2]
      have hpa : (a.issue_id == iid && a.user_id == uid) = false := by
        rw [Bool.and_eq_false_iff]
        by_cases h1 : a.issue_id = iid
        · right
          rw [beq_eq_false_iff_ne]
          intro h2
          exact ha ⟨h1, h2⟩
        · left
          rw [beq_eq_false_iff_ne]
          exact h1
      rw [hpa]
      rfl

/-- C1: for every issue evaluation where the issue is not yet estimated,
the quorum size is positive, the stored vote count is at least the quorum
size and at least one vote is non-joker, consensus is declared reached iff
max(points of non-joker votes) - min(points of non-joker votes) ≤ 2, and
otherwise the evaluator returns not reached with the store unchanged. -/
theorem consensus_variance_threshold (s : State) (iid : ℕ) (issue : Issue) (sess : Session)
    (hfind : findIssue s iid = some issue)
    (hest : issue.is_estimated = false)
    (hsess : findSession s issue.session_id = some sess)
    (hq : 0 < estimatorsCount sess)
    (hcount : estimatorsCount sess ≤ (votesFor s iid).length)
    (hvalid : nonJokerVotes s iid ≠ []) :
    ((check_consensus s iid).1 = true ↔
      listMax (pointsOf (nonJokerVotes s iid)) - listMin (pointsOf (nonJokerVotes s iid)) ≤ 2) ∧
    (¬ (listMax (pointsOf (nonJokerVotes s iid)) - listMin (pointsOf (nonJokerVotes s iid)) ≤ 2) →
      check_consensus s iid = (false, s)) := by
  rw [check_consensus_eq s iid issue sess hfind hest hsess]
  rw [if_neg (by omega), if_neg (by omega), if_neg hvalid]
  constructor
  · constructor
    · intro hflag
      by_contra hnv
      rw [if_neg (fun hc => hnv hc.1)] at hflag
      simp at hflag
    · intro hv
      rw [if_pos ⟨hv, by omega⟩]
  · intro hnv
    rw [if_neg (fun hc => hnv hc.1)]

/-- Witness for C1 on the spec's consensus-failure example: votes 1, 8, 4
have variance 7, so the evaluator reports not reached and keeps the store. -/
theorem consensus_variance_threshold_witness :
    findIssue SFail 1 = some ⟨1, 1, none, none, false⟩ ∧
    (⟨1, 1, none, none, false⟩ : Issue).is_estimated = false ∧
    findSession SFail 1 = some ⟨1, [], [1, 2, 3]⟩ ∧
    0 < estimatorsCount ⟨1, [], [1, 2, 3]⟩ ∧
    estimatorsCount ⟨1, [], [1, 2, 3]⟩ ≤ (votesFor SFail 1).length ∧
    nonJokerVotes SFail 1 ≠ [] ∧
    (((check_consensus SFail 1).1 = true ↔
      listMax (pointsOf (nonJokerVotes SFail 1)) - listMin (pointsOf (nonJokerVotes SFail 1)) ≤ 2) ∧
    (¬ (listMax (pointsOf (nonJokerVotes SFail 1)) - listMin (pointsOf (nonJokerVotes SFail 1)) ≤ 2) →
      check_consensus SFail 1 = (false, SFail))) :=
  ⟨by decide, by decide, by decide, by decide, by decide, by decide,
    consensus_variance_threshold SFail 1 ⟨1, 1, none, none, false⟩ ⟨1, [], [1, 2, 3]⟩
      (by decide) (by decide) (by decide) (by decide) (by decide) (by decide)⟩

/-- C2: whenever consensus is reached the finalized value stored on the
issue is the denomination of {1,2,4,8,16} with the smallest absolute
difference from the arithmetic mean of the non-joker votes, ties resolving
to the first (smallest) element in ascending scan order; in particular a
mean of exactly 6 always yields 4. -/
theorem consensus_final_value (s : State) (iid : ℕ) (issue : Issue)
    (hfind : findIssue s iid = some issue)
    (hreached : (check_consensus s iid).1 = true) :
    ∃ fin : ℤ,
      fin = nearestScore (avgPoints (pointsOf (nonJokerVotes s iid))) ∧
      findIssue (check_consensus s iid).2 iid =
        some { issue with story_points := some fin, is_estimated := true } ∧
      fin ∈ valid_scores ∧
      (∀ x ∈ valid_scores,
        |(fin : ℚ) - avgPoints (pointsOf (nonJokerVotes s iid))| ≤
          |(x : ℚ) - avgPoints (pointsOf (nonJokerVotes s iid))| ∧
        (|(x : ℚ) - avgPoints (pointsOf (nonJokerVotes s iid))| ≤
            |(fin : ℚ) - avgPoints (pointsOf (nonJokerVotes s iid))| → fin ≤ x)) ∧
      (avgPoints (pointsOf (nonJokerVotes s iid)) = 6 → fin = 4) := by
  obtain ⟨hestf, hne, hvar, hstate⟩ := check_consensus_true_inv s iid issue hfind hreached
  refine ⟨nearestScore (avgPoints (pointsOf (nonJokerVotes s iid))), rfl, ?_, ?_, ?_, ?_⟩
  · rw [hstate]
    have hid : issue.id = iid := by simpa using List.find?_some hfind
    exact findIssue_update s iid _ hid issue hfind
  · exact (nearestScore_spec (avgPoints (pointsOf (nonJokerVotes s iid)))).1
  · intro x hx
    have h2 := (nearestScore_spec (avgPoints (pointsOf (nonJokerVotes s iid)))).2 x hx
    simpa only [ratAbs_eq_abs] using h2
  · intro h6
    rw [h6]
    decide

/-- Witness for C2 on votes 5 and 7: variance 2, mean exactly 6, so the
equidistant tie between 4 and 8 deterministically resolves to 4. -/
theorem consensus_final_value_witness :
    findIssue S2 1 = some ⟨1, 1, none, none, false⟩ ∧
    (check_consensus S2 1).1 = true ∧
    avgPoints (pointsOf (nonJokerVotes S2 1)) = 6 ∧
    (∃ fin : ℤ,
      fin = nearestScore (avgPoints (pointsOf (nonJokerVotes S2 1))) ∧
      findIssue (check_consensus S2 1).2 1 =
        some { id := 1, session_id := 1, story_points := some fin,
               story_points_before := none, is_estimated := true } ∧
      fin ∈ valid_scores ∧
      (∀ x ∈ valid_scores,
        |(fin : ℚ) - avgPoints (pointsOf (nonJokerVotes S2 1))| ≤
          |(x : ℚ) - avgPoints (pointsOf (nonJokerVotes S2 1))| ∧
        (|(x : ℚ) - avgPoints (pointsOf (nonJokerVotes S2 1))| ≤
            |(fin : ℚ) - avgPoints (pointsOf (nonJokerVotes S2 1))| → fin ≤ x)) ∧
      (avgPoints (pointsOf (nonJokerVotes S2 1)) = 6 → fin = 4)) :=
  ⟨by decide, by decide, by decide,
    consensus_final_value S2 1 ⟨1, 1, none, none, false⟩ (by decide) (by decide)⟩

/-- C3: the quorum is the estimator set's size when non-empty, else the
participant set's size when non-empty, else 0; and evaluation reports not
reached when the quorum is 0 or fewer votes than the quorum are stored. -/
theorem quorum_resolution_gating (s : State) (iid : ℕ) (issue : Issue) (sess : Session)
    (hfind : findIssue s iid = some issue)
    (hsess : findSession s issue.session_id = some sess) :
    (sess.estimators ≠ [] → estimatorsCount sess = sess.estimators.length) ∧
    (sess.estimators = [] → sess.participants ≠ [] →
      estimatorsCount sess = sess.participants.length) ∧
    (sess.estimators = [] → sess.participants = [] → estimatorsCount sess = 0) ∧
    (estimatorsCount sess = 0 → check_consensus s iid = (false, s)) ∧
    ((votesFor s iid).length < estimatorsCount sess → check_consensus s iid = (false, s)) := by
  refine ⟨?_, ?_, ?_, ?_, ?_⟩
  · intro h
    unfold estimatorsCount
    rw [if_pos (by simpa using List.length_pos.mpr h)]
  · intro h hp
    unfold estimatorsCount
    rw [if_neg (by simp [h]), if_pos hp]
  · intro h hp
    unfold estimatorsCount
    rw [if_neg (by simp [h]), if_neg (by simp [hp])]
  · intro h0
    by_cases hest : issue.is_estimated = true
    · exact check_consensus_estimated s iid issue hfind hest
    · have hestf := Bool.eq_false_iff.mpr hest
      rw [check_consensus_eq s iid issue sess hfind hestf hsess, if_pos h0]
  · intro hlt
    by_cases hest : issue.is_estimated = true
    · exact check_consensus_estimated s iid issue hfind hest
    · have hestf := Bool.eq_false_iff.mpr hest
      rw [check_consensus_eq s iid issue sess hfind hestf hsess]
      by_cases h0 : estimatorsCount sess = 0
      · rw [if_pos h0]
      · rw [if_neg h0, if_pos hlt]

/-- Witness for C3 on the spec's quorum-gating example: 3 estimators and
only 2 votes, so the evaluator returns not reached. -/
theorem quorum_resolution_gating_witness :
    findIssue S3 1 = some ⟨1, 1, none, none, false⟩ ∧
    findSession S3 1 = some ⟨1, [], [1, 2, 3]⟩ ∧
    (votesFor S3 1).length < estimatorsCount ⟨1, [], [1, 2, 3]⟩ ∧
    check_consensus S3 1 = (false, S3) :=
  ⟨by decide, by decide, by decide,
    (quorum_resolution_gating S3 1 ⟨1, 1, none, none, false⟩ ⟨1, [], [1, 2, 3]⟩
      (by decide) (by decide)).2.2.2.2 (by decide)⟩

/-- C4: once an issue is estimated, evaluation short-circuits to not
reached with the store untouched, and any further vote submission leaves
the issue row (story_points and is_estimated included) unchanged. -/
theorem one_shot_latch (s : State) (iid : ℕ) (issue : Issue)
    (hfind : findIssue s iid = some issue)
    (hest : issue.is_estimated = true) :
    check_consensus s iid = (false, s) ∧
    ∀ d : EstimateCreate, d.issue_id = iid →
      findIssue (create_estimate s d) iid = some issue := by
  refine ⟨check_consensus_estimated s iid issue hfind hest, ?_⟩
  intro d hd
  subst hd
  have hfind2 : findIssue (upsertVote s d) d.issue_id = some issue := by
    unfold findIssue at hfind ⊢
    rw [upsertVote_issues]
    exact hfind
  have hcc2 := check_consensus_estimated (upsertVote s d) d.issue_id issue hfind2 hest
  unfold create_estimate
  rw [hcc2]
  exact hfind2

/-- Witness for C4: an issue finalized at 8 stays at 8 after a fresh vote
that would otherwise reach consensus on 2. -/
theorem one_shot_latch_witness :
    findIssue S4 1 = some ⟨1, 1, some 8, none, true⟩ ∧
    (⟨1, 1, some 8, none, true⟩ : Issue).is_estimated = true ∧
    check_consensus S4 1 = (false, S4) ∧
    findIssue (create_estimate S4 ⟨1, 1, 4, 1, false⟩) 1 = some ⟨1, 1, some 8, none, true⟩ :=
  ⟨by decide, by decide,
    (one_shot_latch S4 1 ⟨1, 1, some 8, none, true⟩ (by decide) (by decide)).1,
    (one_shot_latch S4 1 ⟨1, 1, some 8, none, true⟩ (by decide) (by decide)).2
      ⟨1, 1, 4, 1, false⟩ rfl⟩

/-- Counterexample to C5: on a store whose issue already carries estimate
7, a reached evaluation finalizes to 4 but leaves story_points_before at
none instead of capturing the previous estimate 7. -/
theorem finalize_no_previous_capture :
    (check_consensus S5 1).1 = true ∧
    findIssue S5 1 = some ⟨1, 1, some 7, none, false⟩ ∧
    findIssue (check_consensus S5 1).2 1 = some ⟨1, 1, some 4, none, true⟩ ∧
    Option.map Issue.story_points_before (findIssue (check_consensus S5 1).2 1) ≠
      some (some 7) :=
  ⟨by decide, by decide, by decide, by decide⟩

/-- C5 as amended: when the result is reached, finalization sets
story_points to the computed final value and is_estimated to true while
leaving story_points_before unchanged; when not reached, the store is not
modified at all. -/
theorem finalize_applies_result (s : State) (iid : ℕ) (issue : Issue)
    (hfind : findIssue s iid = some issue) :
    ((check_consensus s iid).1 = false → (check_consensus s iid).2 = s) ∧
    ((check_consensus s iid).1 = true →
      findIssue (check_consensus s iid).2 iid =
        some { issue with
            story_points := some (nearestScore (avgPoints (pointsOf (nonJokerVotes s iid)))),
            is_estimated := true }) := by
  constructor
  · intro hfalse
    rcases check_consensus_cases s iid with h | h
    · rw [hfalse] at h
      exact absurd h (by simp)
    · rw [h]
  · intro htrue
    obtain ⟨_, _, _, hstate⟩ := check_consensus_true_inv s iid issue hfind htrue
    rw [hstate]
    have hid : issue.id = iid := by simpa using List.find?_some hfind
    exact findIssue_update s iid _ hid issue hfind

/-- Witness for the amended C5 on the store with previous estimate 7. -/
theorem finalize_applies_result_witness :
    findIssue S5 1 = some ⟨1, 1, some 7, none, false⟩ ∧
    (((check_consensus S5 1).1 = false → (check_consensus S5 1).2 = S5) ∧
      ((check_consensus S5 1).1 = true →
        findIssue (check_consensus S5 1).2 1 =
          some { id := 1, session_id := 1,
                 story_points := some (nearestScore (avgPoints (pointsOf (nonJokerVotes S5 1)))),
                 story_points_before := none, is_estimated := true })) :=
  ⟨by decide, finalize_applies_result S5 1 ⟨1, 1, some 7, none, false⟩ (by decide)⟩

/-- C6 as the code behaves: the schema validator accepts a joker vote with
points 5 (the claim expects a ValidationError) and rejects points 0 even
for a joker (the spec's only legal joker form), because the validator
reads is_joker before that field has been validated and so always falls
back to False; the non-joker points ≥ 1 rule does hold. -/
theorem joker_validation_code_behavior :
    validateEstimateCreate 1 1 5 1 true = Except.ok ⟨1, 1, 5, 1, true⟩ ∧
    validateEstimateCreate 1 1 0 1 false =
      Except.error "story_points must be greater than or equal to 1" ∧
    validateEstimateCreate 1 1 0 1 true =
      Except.error "story_points must be greater than or equal to 1" :=
  ⟨rfl, rfl, rfl⟩

/-- C7: if every stored vote for an issue is a joker, evaluation returns
not reached with the store unchanged regardless of the vote count, and the
summary reports zero valid estimates, zeroed min/max/avg, no consensus,
and a joker count equal to the total vote count. -/
theorem all_joker_votes (s : State) (iid : ℕ)
    (hall : ∀ e ∈ votesFor s iid, e.is_joker = true) :
    check_consensus s iid = (false, s) ∧
    (votesFor s iid ≠ [] →
      get_estimate_summary s iid = some
        { issue_id := iid,
          total_estimates := (votesFor s iid).length,
          valid_estimates := 0,
          avg_points := 0,
          min_points := 0,
          max_points := 0,
          is_consensus := false,
          estimates := (votesFor s iid).map (fun e => (e.user_id, 0, true)),
          joker_count := (votesFor s iid).length }) := by
  have hfilter : (votesFor s iid).filter (fun e => !e.is_joker) = [] := by
    rw [List.filter_eq_nil_iff]
    intro a ha
    simp [hall a ha]
  constructor
  · cases hIfind : findIssue s iid with
    | none =>
      unfold check_consensus
      rw [hIfind]
    | some issue =>
      by_cases hest : issue.is_estimated = true
      · exact check_consensus_estimated s iid issue hIfind hest
      · have hestf := Bool.eq_false_iff.mpr hest
        cases hsess : findSession s issue.session_id with
        | none => exact check_consensus_no_session s iid issue hIfind hestf hsess
        | some sess =>
          rw [check_consensus_eq s iid issue sess hIfind hestf hsess]
          have hnj : nonJokerVotes s iid = [] := hfilter
          by_cases h0 : estimatorsCount sess = 0
          · rw [if_pos h0]
          · rw [if_neg h0]
            by_cases h1 : (votesFor s iid).length < estimatorsCount sess
            · rw [if_pos h1]
            · rw [if_neg h1, if_pos hnj]
  · intro hne
    have hjoker : (votesFor s iid).filter (fun e => e.is_joker) = votesFor s iid := by
      rw [List.filter_eq_self]
      intro a ha
      exact hall a ha
    unfold get_estimate_summary
    dsimp only
    rw [if_neg hne, if_pos hfilter, hjoker]

/-- Witness for C7 on the spec's all-joker example: two estimators, two
joker votes; quorum is met but consensus is not reached and the summary
zeroes out. -/
theorem all_joker_votes_witness :
    (∀ e ∈ votesFor S7 1, e.is_joker = true) ∧
    votesFor S7 1 ≠ [] ∧
    check_consensus S7 1 = (false, S7) ∧
    get_estimate_summary S7 1 = some
      { issue_id := 1,
        total_estimates := (votesFor S7 1).length,
        valid_estimates := 0,
        avg_points := 0,
        min_points := 0,
        max_points := 0,
        is_consensus := false,
        estimates := (votesFor S7 1).map (fun e => (e.user_id, 0, true)),
        joker_count := (votesFor S7 1).length } :=
  ⟨by decide, by decide,
    (all_joker_votes S7 1 (by decide)).1,
    (all_joker_votes S7 1 (by decide)).2 (by decide)⟩

/-- C8: the summary is null exactly when the issue has no votes; otherwise
min, max, arithmetic mean and the consensus flag (max - min ≤ 2) come from
the non-joker votes only, while the total and joker counts range over all
votes; the builder reads the store without writing it back. -/
theorem summary_fields (s : State) (iid : ℕ) :
    (get_estimate_summary s iid = none ↔ votesFor s iid = []) ∧
    (nonJokerVotes s iid ≠ [] →
      get_estimate_summary s iid = some
        { issue_id := iid,
          total_estimates := (votesFor s iid).length,
          valid_estimates := (nonJokerVotes s iid).length,
          avg_points := avgPoints (pointsOf (nonJokerVotes s iid)),
          min_points := listMin (pointsOf (nonJokerVotes s iid)),
          max_points := listMax (pointsOf (nonJokerVotes s iid)),
          is_consensus :=
            decide (listMax (pointsOf (nonJokerVotes s iid)) -
              listMin (pointsOf (nonJokerVotes s iid)) ≤ 2),
          estimates := (votesFor s iid).map (fun e =>
            (e.user_id, if e.is_joker then 0 else e.story_points, e.is_joker)),
          joker_count := ((votesFor s iid).filter (fun e => e.is_joker)).length }) := by
  constructor
  · constructor
    · intro h
      by_contra hne
      unfold get_estimate_summary at h
      dsimp only at h
      rw [if_neg hne] at h
      split_ifs at h
    · intro h
      unfold get_estimate_summary
      dsimp only
      rw [if_pos h]
  · intro hvne
    have hne : votesFor s iid ≠ [] := by
      intro h
      apply hvne
      unfold nonJokerVotes
      rw [h]
      rfl
    have hvraw : (votesFor s iid).filter (fun e => !e.is_joker) ≠ [] := hvne
    unfold get_estimate_summary
    dsimp only
    rw [if_neg hne, if_neg hvraw]
    rfl

/-- Witness for C8 on votes 4, joker, 2: totals count all three votes, the
aggregates come from the two numeric votes. -/
theorem summary_fields_witness :
    nonJokerVotes S8 1 ≠ [] ∧
    (get_estimate_summary S8 1 = none ↔ votesFor S8 1 = []) ∧
    get_estimate_summary S8 1 = some
      { issue_id := 1,
        total_estimates := (votesFor S8 1).length,
        valid_estimates := (nonJokerVotes S8 1).length,
        avg_points := avgPoints (pointsOf (nonJokerVotes S8 1)),
        min_points := listMin (pointsOf (nonJokerVotes S8 1)),
        max_points := listMax (pointsOf (nonJokerVotes S8 1)),
        is_consensus :=
          decide (listMax (pointsOf (nonJokerVotes S8 1)) -
            listMin (pointsOf (nonJokerVotes S8 1)) ≤ 2),
        estimates := (votesFor S8 1).map (fun e =>
          (e.user_id, if e.is_joker then 0 else e.story_points, e.is_joker)),
        joker_count := ((votesFor S8 1).filter (fun e => e.is_joker)).length } :=
  ⟨by decide, (summary_fields S8 1).1, (summary_fields S8 1).2 (by decide)⟩

/-- C9: under the unique-vote invariant, submitting a vote keeps at most
one row per (issue, user) pair; every row stored under the submitted key
carries the submitted story_points and is_joker; a re-submission
overwrites the existing row in place — the table becomes the pointwise
image where exactly the matching row gets the new values, all other rows
and the row count unchanged — a first submission appends a new row; and
every successful submission runs the consensus evaluation on the upserted
store. -/
theorem vote_upsert_unique (s : State) (d : EstimateCreate)
    (h : UniqueVotes s.estimates) :
    UniqueVotes (create_estimate s d).estimates ∧
    (create_estimate s d).estimates.countP
      (fun e => e.issue_id == d.issue_id && e.user_id == d.user_id) = 1 ∧
    (∀ e ∈ (create_estimate s d).estimates,
      e.issue_id = d.issue_id → e.user_id = d.user_id →
      e.story_points = d.story_points ∧ e.is_joker = d.is_joker) ∧
    ((∃ e ∈ s.estimates, e.issue_id = d.issue_id ∧ e.user_id = d.user_id) →
      (create_estimate s d).estimates = s.estimates.map (fun e =>
        if e.issue_id == d.issue_id && e.user_id == d.user_id then
          { e with story_points := d.story_points, is_joker := d.is_joker }
        else e) ∧
      (create_estimate s d).estimates.length = s.estimates.length) ∧
    ((¬ ∃ e ∈ s.estimates, e.issue_id = d.issue_id ∧ e.user_id = d.user_id) →
      (create_estimate s d).estimates =
        s.estimates ++ [⟨d.issue_id, d.user_id, d.story_points, d.is_joker⟩]) ∧
    create_estimate s d = (check_consensus (upsertVote s d) d.issue_id).2 := by
  have hest : (create_estimate s d).estimates = (upsertVote s d).estimates :=
    check_consensus_estimates (upsertVote s d) d.issue_id
  by_cases hex : ∃ e ∈ s.estimates, e.issue_id = d.issue_id ∧ e.user_id = d.user_id
  · have hany : s.estimates.any
        (fun e => e.issue_id == d.issue_id && e.user_id == d.user_id) = true := by
      rw [List.any_eq_true]
      obtain ⟨e, he, hc⟩ := hex
      exact ⟨e, he, by simp [hc.1, hc.2]⟩
    have hup : (upsertVote s d).estimates = s.estimates.map (fun e =>
        if e.issue_id == d.issue_id && e.user_id == d.user_id then
          { e with story_points := d.story_points, is_joker := d.is_joker }
        else e) := by
      unfold upsertVote
      rw [if_pos hany]
    refine ⟨?_, ?_, ?_, fun _ => ⟨hest.trans hup, ?_⟩, fun hnex => absurd hex hnex, rfl⟩
    · rw [hest, hup]
      unfold UniqueVotes at h ⊢
      rw [List.pairwise_map]
      refine h.imp ?_
      intro a b hab hcon
      apply hab
      revert hcon
      split_ifs <;> exact fun hcon => hcon
    · rw [hest, hup, List.countP_map]
      rw [List.countP_congr ?_]
      · exact countP_eq_one_of_unique s.estimates d.issue_id d.user_id h hex
      · intro x hx
        simp only [Function.comp_apply]
        split_ifs with hcond
        · exact ⟨fun _ => hcond, fun _ => hcond⟩
        · exact Iff.rfl
    · rw [hest, hup]
      intro e he h1 h2
      rcases List.mem_map.mp he with ⟨x, hx, rfl⟩
      by_cases hc : (x.issue_id == d.issue_id && x.user_id == d.user_id) = true
      · rw [if_pos hc]
        exact ⟨rfl, rfl⟩
      · rw [if_neg hc] at h1 h2
        exact absurd (by simp [h1, h2]) hc
    · rw [hest, hup, List.length_map]
  · have hany : ¬ s.estimates.any
        (fun e => e.issue_id == d.issue_id && e.user_id == d.user_id) = true := by
      rw [List.any_eq_true]
      intro ⟨e, he, hc⟩
      exact hex ⟨e, he, by simpa using hc⟩
    have hup : (upsertVote s d).estimates =
        s.estimates ++ [⟨d.issue_id, d.user_id, d.story_points, d.is_joker⟩] := by
      unfold upsertVote
      rw [if_neg hany]
    refine ⟨?_, ?_, ?_, fun hex2 => absurd hex2 hex, fun _ => hest.trans hup, rfl⟩
    · rw [hest, hup]
      unfold UniqueVotes at h ⊢
      rw [List.pairwise_append]
      refine ⟨h, List.pairwise_singleton _ _, ?_⟩
      intro a ha b hb
      rw [List.mem_singleton] at hb
      subst hb
      intro hcon
      exact hex ⟨a, ha, by simpa using hcon⟩
    · rw [hest, hup, List.countP_append]
      have h0 : s.estimates.countP
          (fun e => e.issue_id == d.issue_id && e.user_id == d.user_id) = 0 := by
        rw [List.countP_eq_zero]
        intro a ha hc
        exact hex ⟨a, ha, by simpa using hc⟩
      rw [h0]
      simp
    · rw [hest, hup]
      intro e he h1 h2
      rcases List.mem_append.mp he with hin | hin
      · exact absurd ⟨e, hin, h1, h2⟩ hex
      · rw [List.mem_singleton] at hin
        subst hin
        exact ⟨rfl, rfl⟩

/-- Witness for C9: user 1 re-submits points 4 over an existing vote of 8
for issue 1; the row count stays at one, the pair stays unique, and the
stored row now carries points 4, is_joker false. -/
theorem vote_upsert_unique_witness :
    UniqueVotes S9.estimates ∧
    (UniqueVotes (create_estimate S9 ⟨1, 1, 4, 1, false⟩).estimates ∧
      (create_estimate S9 ⟨1, 1, 4, 1, false⟩).estimates.countP
        (fun e => e.issue_id == 1 && e.user_id == 1) = 1 ∧
      (∀ e ∈ (create_estimate S9 ⟨1, 1, 4, 1, false⟩).estimates,
        e.issue_id = 1 → e.user_id = 1 →
        e.story_points = 4 ∧ e.is_joker = false) ∧
      ((∃ e ∈ S9.estimates, e.issue_id = 1 ∧ e.user_id = 1) →
        (create_estimate S9 ⟨1, 1, 4, 1, false⟩).estimates = S9.estimates.map (fun e =>
          if e.issue_id == 1 && e.user_id == 1 then
            { e with story_points := 4, is_joker := false }
          else e) ∧
        (create_estimate S9 ⟨1, 1, 4, 1, false⟩).estimates.length = S9.estimates.length) ∧
      ((¬ ∃ e ∈ S9.estimates, e.issue_id = 1 ∧ e.user_id = 1) →
        (create_estimate S9 ⟨1, 1, 4, 1, false⟩).estimates =
          S9.estimates ++ [⟨1, 1, 4, false⟩]) ∧
      create_estimate S9 ⟨1, 1, 4, 1, false⟩ =
        (check_consensus (upsertVote S9 ⟨1, 1, 4, 1, false⟩) 1).2) :=
  ⟨by unfold UniqueVotes; decide,
    vote_upsert_unique S9 ⟨1, 1, 4, 1, false⟩ (by unfold UniqueVotes; decide)⟩

/-- C10: the evaluator's reached flag depends on the issue's votes only
through their points and joker flags — never on who cast them — so on a
store whose single estimator never voted but an outsider did, the quorum
threshold is met and consensus is reached and finalized. -/
theorem quorum_ignores_voter_identity (s t : State) (iid : ℕ)
    (hiss : t.issues = s.issues)
    (hsess : t.sessions = s.sessions)
    (hproj : (votesFor t iid).map (fun e => (e.story_points, e.is_joker)) =
             (votesFor s iid).map (fun e => (e.story_points, e.is_joker))) :
    (check_consensus t iid).1 = (check_consensus s iid).1 ∧
    ((check_consensus S10 1).1 = true ∧
      (∀ e ∈ votesFor S10 1, ∀ ss ∈ S10.sessions, e.user_id ∉ ss.estimators) ∧
      findIssue (check_consensus S10 1).2 1 = some ⟨1, 1, some 4, none, true⟩) := by
  refine ⟨?_, by decide, by decide, by decide⟩
  have hfind : findIssue t iid = findIssue s iid := by
    unfold findIssue
    rw [hiss]
  have hfs : ∀ sid, findSession t sid = findSession s sid := by
    intro sid
    unfold findSession
    rw [hsess]
  have hlen : (votesFor t iid).length = (votesFor s iid).length := by
    have h1 := congrArg List.length hproj
    simpa using h1
  have hfcomm : ∀ (l : List Estimate),
      (l.filter (fun e => !e.is_joker)).map (fun e => (e.story_points, e.is_joker)) =
      (l.map (fun e => (e.story_points, e.is_joker))).filter (fun y => !y.2) := by
    intro l
    rw [List.filter_map]
    rfl
  have hvalidproj :
      ((votesFor t iid).filter (fun e => !e.is_joker)).map (fun e => (e.story_points, e.is_joker)) =
      ((votesFor s iid).filter (fun e => !e.is_joker)).map (fun e => (e.story_points, e.is_joker)) := by
    rw [hfcomm, hfcomm, hproj]
  have hvne : ((votesFor t iid).filter (fun e => !e.is_joker) = []) ↔
      ((votesFor s iid).filter (fun e => !e.is_joker) = []) := by
    constructor <;> intro h1
    · have h2 := hvalidproj
      rw [h1] at h2
      exact List.map_eq_nil_iff.mp h2.symm
    · have h2 := hvalidproj
      rw [h1] at h2
      exact List.map_eq_nil_iff.mp h2
  have hpts : ((votesFor t iid).filter (fun e => !e.is_joker)).map (fun e => e.story_points) =
      ((votesFor s iid).filter (fun e => !e.is_joker)).map (fun e => e.story_points) := by
    have h1 := congrArg (List.map Prod.fst) hvalidproj
    simpa [List.map_map] using h1
  unfold check_consensus
  rw [hfind]
  cases hf : findIssue s iid with
  | none => rfl
  | some issue =>
    dsimp only
    by_cases hest : issue.is_estimated = true
    · rw [if_pos (by simp [hest]), if_pos (by simp [hest])]
    · rw [if_neg (by simp [hest]), if_neg (by simp [hest])]
      rw [hfs issue.session_id]
      cases hs2 : findSession s issue.session_id with
      | none => rfl
      | some sess =>
        dsimp only
        by_cases h0 : estimatorsCount sess = 0
        · rw [if_pos h0, if_pos h0]
        · rw [if_neg h0, if_neg h0]
          rw [hlen]
          by_cases h1 : (votesFor s iid).length < estimatorsCount sess
          · rw [if_pos h1, if_pos h1]
          · rw [if_neg h1, if_neg h1]
            by_cases h2 : (votesFor s iid).filter (fun e => !e.is_joker) = []
            · rw [if_pos (hvne.mpr h2), if_pos h2]
            · rw [if_neg (fun hh => h2 (hvne.mp hh)), if_neg h2]
              rw [hpts]
              by_cases h3 : listMax ((votesFor s iid).filter (fun e => !e.is_joker) |>.map
                    (fun e => e.story_points)) -
                  listMin ((votesFor s iid).filter (fun e => !e.is_joker) |>.map
                    (fun e => e.story_points)) ≤ 2 ∧
                  (votesFor s iid).length ≥ estimatorsCount sess
              · rw [if_pos h3, if_pos h3]
              · rw [if_neg h3, if_neg h3]

/-- Witness for C10, instantiating the invariance part at the outsider
store itself. -/
theorem quorum_ignores_voter_identity_witness :
    S10.issues = S10.issues ∧
    ((check_consensus S10 1).1 = (check_consensus S10 1).1 ∧
      ((check_consensus S10 1).1 = true ∧
        (∀ e ∈ votesFor S10 1, ∀ ss ∈ S10.sessions, e.user_id ∉ ss.estimators) ∧
        findIssue (check_consensus S10 1).2 1 = some ⟨1, 1, some 4, none, true⟩)) :=
  ⟨rfl, quorum_ignores_voter_identity S10 S10 1 rfl rfl rfl⟩

end AgilePoker
